import Mathlib

/-!
Verification development for the WeChat chat-transcript PDF exporter
(`export2pdf_0424.py`).  The Python source is shallowly embedded: text is a
list of Unicode codepoints (`List Nat`), widths are rationals, the external
font engine / network / filesystem / datetime library primitives are
parameters of the embedded functions, and the Python functions become total
Lean functions whose branch structure mirrors the source.
-/

namespace WechatExport

/-- Membership of a codepoint in one of the six emoji ranges tested by the
source (`0x1F600–0x1F64F`, `0x1F300–0x1F5FF`, `0x1F680–0x1F6FF`,
`0x2600–0x26FF`, `0x2700–0x27BF`, `0x1F900–0x1F9FF`), exactly the
`is_emoji` test of `get_string_width` and the emoji test of `wrap_text`. -/
def isEmojiRange (c : Nat) : Bool :=
  (decide (0x1F600 ≤ c) && decide (c ≤ 0x1F64F)) ||
  (decide (0x1F300 ≤ c) && decide (c ≤ 0x1F5FF)) ||
  (decide (0x1F680 ≤ c) && decide (c ≤ 0x1F6FF)) ||
  (decide (0x2600 ≤ c) && decide (c ≤ 0x26FF)) ||
  (decide (0x2700 ≤ c) && decide (c ≤ 0x27BF)) ||
  (decide (0x1F900 ≤ c) && decide (c ≤ 0x1F9FF))

/-- Variation selectors `0xFE00–0xFE0F`. -/
def isVariantSelector (c : Nat) : Bool :=
  decide (0xFE00 ≤ c) && decide (c ≤ 0xFE0F)

/-- Skin-tone modifiers `0x1F3FB–0x1F3FF`. -/
def isSkinTone (c : Nat) : Bool :=
  decide (0x1F3FB ≤ c) && decide (c ≤ 0x1F3FF)

/-- Zero-width joiner `0x200D`. -/
def isZWJ (c : Nat) : Bool := c == 0x200D

/-- The `is_modifier` test of the source: variation selector, skin-tone
modifier, or zero-width joiner. -/
def isModifier (c : Nat) : Bool :=
  isVariantSelector c || isSkinTone c || isZWJ c

/-- Embedding of `get_string_width(c, text, font_name, font_size)`
(source lines 781–882).  The underlying font engine's
`canvas.stringWidth(text, font, size)` primitive is the parameter `sw`;
the claims assume this primitive does not fail, so the `try/except`
fallback chains of the source (primary font, then `"Helvetica"`) collapse
to the successful first attempt.  The process-lifetime cache keyed by the
exact `(text, font, size)` triple stores the value computed here, so it is
value-transparent and omitted.  If the text contains an emoji-range
codepoint the source sums per-character widths, skipping modifier
codepoints (they contribute no width) and measuring emoji-range
codepoints in the dedicated `"EmojiFont"`; otherwise it delegates the
whole string to the engine directly. -/
def get_string_width (sw : List Nat → String → ℚ → ℚ)
    (text : List Nat) (fontName : String) (fontSize : ℚ) : ℚ :=
  if text.any isEmojiRange then
    (text.map (fun ch =>
      if isModifier ch then 0
      else if isEmojiRange ch then sw [ch] "EmojiFont" fontSize
      else sw [ch] fontName fontSize)).sum
  else sw text fontName fontSize

/-- Concrete length-based font-engine primitive, used to instantiate
witnesses. -/
def swLen : List Nat → String → ℚ → ℚ := fun l _ _ => (l.length : ℚ)

mutual

/-- Outer modifier-consuming loop of the emoji-cluster scanner in
`wrap_text` (source lines 922–943): starting just after the cluster base,
each variation selector, skin-tone modifier or zero-width joiner is
absorbed into the cluster; a zero-width joiner switches to the inner loop
`scanAfterZWJ`.  Returns how many codepoints are absorbed. -/
def scanMods : List Nat → Nat
  | [] => 0
  | c :: rest =>
    if isModifier c then
      if isZWJ c then scanAfterZWJ rest + 1 else scanMods rest + 1
    else 0
  termination_by l => (l.length, 0)

/-- Inner loop of the emoji-cluster scanner, entered right after a
zero-width joiner (source lines 931–943): absorbs emoji-range codepoints,
variation selectors and skin-tone modifiers, then falls back to the outer
loop test on the first codepoint it does not absorb. -/
def scanAfterZWJ : List Nat → Nat
  | [] => 0
  | c :: rest =>
    if isEmojiRange c || isVariantSelector c || isSkinTone c then
      scanAfterZWJ rest + 1
    else scanMods (c :: rest)
  termination_by l => (l.length, 1)

end

/-- Number of codepoints of the atomic unit (`emoji_length` in the source)
consumed at the head of the remaining text by `wrap_text`: an emoji-range
head absorbs its trailing modifier/ZWJ-chained run via the scanner loops;
any other head is consumed as a single character. -/
def clusterLen : List Nat → Nat
  | [] => 0
  | c :: rest => if isEmojiRange c then scanMods rest + 1 else 1

/-- Decomposition of a text into the successive atomic units (single
characters and emoji clusters) that the `wrap_text` loop consumes,
scanning left to right from position 0. -/
def tokenize (text : List Nat) : List (List Nat) :=
  match text with
  | [] => []
  | c :: rest =>
    (c :: rest).take (clusterLen (c :: rest)) ::
      tokenize ((c :: rest).drop (clusterLen (c :: rest)))
  termination_by text.length
  decreasing_by
    rw [List.length_drop]
    have h : 1 ≤ clusterLen (c :: rest) := by simp only [clusterLen]; split <;> omega
    simp only [List.length_cons]
    omega

/-- Main loop of `wrap_text` (source lines 904–972), parameterised by the
width oracle `w` (which `wrap_text` instantiates with `get_string_width`):
the atomic unit at the head of the remaining text is appended to the
current line when the extended line still fits in `maxWidth`; otherwise
the non-empty current line is flushed and the unit either becomes its own
dedicated line (when the unit alone is wider than `maxWidth`) or starts
the new current line.  The trailing non-empty current line is flushed when
the text is exhausted. -/
def wrapGo (w : List Nat → ℚ) (maxWidth : ℚ) :
    List Nat → List Nat → List (List Nat)
  | [], currentLine => if currentLine = [] then [] else [currentLine]
  | c :: rest, currentLine =>
    if w (currentLine ++ (c :: rest).take (clusterLen (c :: rest))) ≤ maxWidth then
      wrapGo w maxWidth ((c :: rest).drop (clusterLen (c :: rest)))
        (currentLine ++ (c :: rest).take (clusterLen (c :: rest)))
    else
      (if currentLine = [] then [] else [currentLine]) ++
        (if maxWidth < w ((c :: rest).take (clusterLen (c :: rest))) then
          (c :: rest).take (clusterLen (c :: rest)) ::
            wrapGo w maxWidth ((c :: rest).drop (clusterLen (c :: rest))) []
        else
          wrapGo w maxWidth ((c :: rest).drop (clusterLen (c :: rest)))
            ((c :: rest).take (clusterLen (c :: rest))))
  termination_by text _ => text.length
  decreasing_by
    all_goals
      rw [List.length_drop]
      have h : 1 ≤ clusterLen (c :: rest) := by simp only [clusterLen]; split <;> omega
      simp only [List.length_cons]
      omega

/-- Embedding of `wrap_text(c, text, font_name, font_size, max_width)`
(source lines 885–974).  Empty text yields the empty line list; otherwise
the greedy loop `wrapGo` runs with the `get_string_width` oracle over the
same font-engine primitive `sw`. -/
def wrap_text (sw : List Nat → String → ℚ → ℚ) (text : List Nat)
    (fontName : String) (fontSize maxWidth : ℚ) : List (List Nat) :=
  if text = [] then []
  else wrapGo (fun l => get_string_width sw l fontName fontSize) maxWidth text []

/-- Shape of `wrapGo`'s output: the pending current line glued onto the
first chunk of whole tokens, followed by the joins of the remaining
chunks (a proof-side helper, not part of the source). -/
def glueLines (currentLine : List Nat) : List (List (List Nat)) → List (List Nat)
  | [] => if currentLine = [] then [] else [currentLine]
  | ch :: rest => (currentLine ++ ch.flatten) :: rest.map List.flatten

/-- Python value stored under a message's `CreateTime` key: the dumps
carry either a string or an integer. -/
inductive PyVal where
  | str (v : String)
  | int (n : Int)
  deriving DecidableEq

/-- Message dictionary restricted to the fields the sorting and grouping
code reads: the `CreateTime` value (absent key modelled as `none`) and the
message body (to distinguish messages). -/
structure Message where
  createTime : Option PyVal
  msg : String
  deriving DecidableEq

/-- Python truthiness of an optional `CreateTime` value (`if timestamp:`):
a missing key, the empty string and the integer 0 are falsy. -/
def truthy : Option PyVal → Bool
  | none => false
  | some (.str v) => !(v == "")
  | some (.int n) => !(n == 0)

/-- Result of the Python `datetime` constructor restricted to the six
fields that `datetime` ordering compares lexicographically. -/
structure DateTime where
  year : Nat
  month : Nat
  day : Nat
  hour : Nat
  minute : Nat
  second : Nat
  deriving DecidableEq

/-- Python `datetime <= datetime`: lexicographic on the six fields. -/
def dtLe (a b : DateTime) : Bool :=
  decide (a.year < b.year) || (a.year == b.year &&
    (decide (a.month < b.month) || (a.month == b.month &&
      (decide (a.day < b.day) || (a.day == b.day &&
        (decide (a.hour < b.hour) || (a.hour == b.hour &&
          (decide (a.minute < b.minute) || (a.minute == b.minute &&
            decide (a.second ≤ b.second))))))))))

/-- External datetime-library primitives consumed by `parse_timestamp`:
`pyInt` models Python `int(string)` (`none` when `int()` raises
`ValueError`), `fromts` models `datetime.fromtimestamp`, and `strptime`
models `datetime.strptime s fmt` (`none` when it raises `ValueError`). -/
structure PyPrims where
  pyInt : String → Option Int
  fromts : Int → DateTime
  strptime : String → String → Option DateTime

/-- The four fallback formats tried in order by `parse_timestamp`
(source line 650). -/
def timestampFormats : List String :=
  ["%Y-%m-%d %H:%M:%S", "%Y/%m/%d %H:%M:%S", "%Y-%m-%d", "%Y/%m/%d"]

/-- Embedding of `parse_timestamp(timestamp)` (source lines 631–662).
Falsy timestamps yield `None`; an integer value, or a string accepted by
Python `int()`, is converted with `datetime.fromtimestamp`; otherwise the
four formats are tried in order with `datetime.strptime`; when all fail
the result is `None`.  The memo cache keyed by the exact timestamp value
stores the value computed here, so it is value-transparent and omitted. -/
def parse_timestamp (P : PyPrims) (timestamp : Option PyVal) : Option DateTime :=
  if truthy timestamp = false then none
  else
    match timestamp with
    | some (.int n) => some (P.fromts n)
    | some (.str s) =>
      match P.pyInt s with
      | some n => some (P.fromts n)
      | none => timestampFormats.findSome? (fun fmt => P.strptime s fmt)
    | none => none

/-- Calendar-date triple standing for the `strftime("%Y-%m-%d")` string
the source uses as grouping key (the string determines and is determined
by the three fields). -/
def dateOf (d : DateTime) : Nat × Nat × Nat := (d.year, d.month, d.day)

/-- Embedding of `get_date_from_timestamp(timestamp)` (source lines
677–686): the date part of the parsed timestamp, `None` when parsing
fails. -/
def get_date_from_timestamp (P : PyPrims) (timestamp : Option PyVal) :
    Option (Nat × Nat × Nat) :=
  (parse_timestamp P timestamp).map dateOf

/-- Python `str.isdigit()` restricted to ASCII digits: true iff the string
is non-empty and all characters are `0`–`9` (the source only meets ASCII
decimal timestamps on this path). -/
def pyIsdigit (s : String) : Bool :=
  !(s == "") && s.toList.all Char.isDigit

/-- Decimal value of an all-digit string — the value Python `int()`
returns on a string accepted by `isdigit`. -/
def decimalVal (s : String) : Nat :=
  s.toList.foldl (fun acc ch => acc * 10 + (ch.toNat - 48)) 0

/-- Primary sort key of `generate_pdf` (source line 2098):
`int(x.get("CreateTime", 0)) if x.get("CreateTime", "").isdigit() else 0`.
Evaluating `.isdigit()` raises on a present non-string value, so this key
is only reached when `CreateTime` is a string or missing; `primaryKeyOk`
states that side condition. -/
def primaryKey (m : Message) : Int :=
  match m.createTime with
  | some (.str t) => if pyIsdigit t then (decimalVal t : Int) else 0
  | _ => 0

/-- The primary key computation does not raise for this message: a
present integer `CreateTime` makes `.isdigit()` raise `AttributeError`,
which sends `generate_pdf` to the fallback sort. -/
def primaryKeyOk (m : Message) : Bool :=
  match m.createTime with
  | some (.int _) => false
  | _ => true

/-- Fallback sort key (source line 2103):
`parse_timestamp(x.get("CreateTime", 0)) or datetime(1970, 1, 1)`. -/
def fallbackKey (P : PyPrims) (m : Message) : DateTime :=
  (parse_timestamp P m.createTime).getD ⟨1970, 1, 1, 0, 0, 0⟩

/-- Embedding of the message sort of `generate_pdf` (source lines
2096–2105): a stable ascending sort (CPython timsort; modelled by the
stable `List.insertionSort`, which agrees with every stable sort on a
total preorder) on the primary key.  When computing a primary key raises
(some `CreateTime` is a present non-string), CPython leaves the list
unchanged and the fallback sort on `parse_timestamp` keys runs instead. -/
def pySortChats (P : PyPrims) (chats : List Message) : List Message :=
  if chats.all primaryKeyOk then
    List.insertionSort (fun a b => primaryKey a ≤ primaryKey b) chats
  else
    List.insertionSort (fun a b => dtLe (fallbackKey P a) (fallbackKey P b) = true) chats

/-- Modelled from the spec: the sort key that claim C2 describes — "a
numeric parse is attempted first and, when that fails, one of a small set
of date-string formats is used as the sort key; only timestamps
unparseable by every format sort as epoch 0". -/
def claimKey (P : PyPrims) (m : Message) : DateTime :=
  match m.createTime with
  | some (.int n) => P.fromts n
  | some (.str s) =>
    match P.pyInt s with
    | some n => P.fromts n
    | none =>
      match timestampFormats.findSome? (fun fmt => P.strptime s fmt) with
      | some dt => dt
      | none => P.fromts 0
  | none => P.fromts 0

/-- Modelled from the spec: message ordering as claim C2 describes it —
stable ascending sort on `claimKey`. -/
def claimSortChats (P : PyPrims) (chats : List Message) : List Message :=
  List.insertionSort (fun a b => dtLe (claimKey P a) (claimKey P b) = true) chats

/-- Splitting a character list at every occurrence of a separator
(pure-list counterpart of `str.split` at a one-character separator). -/
def splitOnChar (sep : Char) : List Char → List (List Char)
  | [] => [[]]
  | c :: cs =>
    if c = sep then [] :: splitOnChar sep cs
    else
      match splitOnChar sep cs with
      | [] => [[c]]
      | g :: gs => (c :: g) :: gs

/-- Decimal digit-run field of at most `maxLen` characters, as matched by
the CPython `strptime` regexes (`%Y` up to four digits, the other
directives up to two). -/
def parseField (maxLen : Nat) (cs : List Char) : Option Nat :=
  if cs.isEmpty || decide (maxLen < cs.length) || !(cs.all Char.isDigit) then none
  else some (cs.foldl (fun acc ch => acc * 10 + (ch.toNat - 48)) 0)

/-- Gregorian leap-year test used by `datetime` day validation. -/
def isLeapYear (y : Nat) : Bool :=
  (y % 4 == 0 && !(y % 100 == 0)) || y % 400 == 0

/-- Number of days of a month as validated by the `datetime`
constructor. -/
def daysInMonth (y m : Nat) : Nat :=
  if m = 2 then (if isLeapYear y then 29 else 28)
  else if m = 4 ∨ m = 6 ∨ m = 9 ∨ m = 11 then 30
  else 31

/-- Date component `%Y<sep>%m<sep>%d` of the supported formats, with the
`datetime` constructor's validation (year ≥ 1, month 1–12, day within the
month). -/
def parseDatePart (sep : Char) (cs : List Char) : Option (Nat × Nat × Nat) :=
  match splitOnChar sep cs with
  | [ys, ms, ds] =>
    match parseField 4 ys, parseField 2 ms, parseField 2 ds with
    | some y, some m, some d =>
      if 1 ≤ y ∧ 1 ≤ m ∧ m ≤ 12 ∧ 1 ≤ d ∧ d ≤ daysInMonth y m then
        some (y, m, d)
      else none
    | _, _, _ => none
  | _ => none

/-- Time component `%H:%M:%S`, with the `datetime` constructor's
validation (hour ≤ 23, minute ≤ 59, second ≤ 59). -/
def parseTimePart (cs : List Char) : Option (Nat × Nat × Nat) :=
  match splitOnChar ':' cs with
  | [hs, ms, ss] =>
    match parseField 2 hs, parseField 2 ms, parseField 2 ss with
    | some h, some mi, some s =>
      if h ≤ 23 ∧ mi ≤ 59 ∧ s ≤ 59 then some (h, mi, s) else none
    | _, _, _ => none
  | _ => none

/-- Modelled from the spec: CPython `datetime.strptime` restricted to the
four formats `parse_timestamp` uses (the source delegates to the datetime
library here).  Fields are decimal digit runs, separators are literal,
unconverted trailing data rejects the format, and field ranges are
validated as the `datetime` constructor does. -/
def strptimeModel (s fmt : String) : Option DateTime :=
  if fmt = "%Y-%m-%d %H:%M:%S" then
    match splitOnChar ' ' s.toList with
    | [d, t] =>
      match parseDatePart '-' d, parseTimePart t with
      | some (y, m, dd), some (h, mi, ss) => some ⟨y, m, dd, h, mi, ss⟩
      | _, _ => none
    | _ => none
  else if fmt = "%Y/%m/%d %H:%M:%S" then
    match splitOnChar ' ' s.toList with
    | [d, t] =>
      match parseDatePart '/' d, parseTimePart t with
      | some (y, m, dd), some (h, mi, ss) => some ⟨y, m, dd, h, mi, ss⟩
      | _, _ => none
    | _ => none
  else if fmt = "%Y-%m-%d" then
    (parseDatePart '-' s.toList).map (fun x => ⟨x.1, x.2.1, x.2.2, 0, 0, 0⟩)
  else if fmt = "%Y/%m/%d" then
    (parseDatePart '/' s.toList).map (fun x => ⟨x.1, x.2.1, x.2.2, 0, 0, 0⟩)
  else none

/-- Digit run (no length cap) as an optional natural number. -/
def parseNatAll (cs : List Char) : Option Nat :=
  if cs.isEmpty || !(cs.all Char.isDigit) then none
  else some (cs.foldl (fun acc ch => acc * 10 + (ch.toNat - 48)) 0)

/-- Modelled from the spec: Python `int(string)` on the plain decimal
forms (optional sign, digit run); other accepted spellings (surrounding
whitespace, underscores) do not occur in the concrete inputs used here. -/
def pyIntModel (s : String) : Option Int :=
  match s.toList with
  | '-' :: cs => (parseNatAll cs).map (fun n => -(n : Int))
  | '+' :: cs => (parseNatAll cs).map (fun n => (n : Int))
  | cs => (parseNatAll cs).map (fun n => (n : Int))

/-- Concrete stand-in for `datetime.fromtimestamp` used to instantiate
witnesses and counterexamples: epoch seconds are stored in the second
field (order-preserving on non-negative timestamps; the concrete
counterexample inputs never evaluate it). -/
def fromtsModel (n : Int) : DateTime := ⟨1970, 1, 1, 0, 0, n.toNat⟩

/-- Concrete datetime-library primitives for witnesses and
counterexamples. -/
def pyPrimsModel : PyPrims := ⟨pyIntModel, fromtsModel, strptimeModel⟩

/-- One step of the date-grouping pass:
`dates_dict.setdefault(date, []).append(msg)` on an insertion-ordered
dictionary modelled as an association list. -/
def addToGroup (d : Nat × Nat × Nat) (m : Message) :
    List ((Nat × Nat × Nat) × List Message) →
      List ((Nat × Nat × Nat) × List Message)
  | [] => [(d, [m])]
  | (d', ms) :: rest =>
    if d' = d then (d', ms ++ [m]) :: rest else (d', ms) :: addToGroup d m rest

/-- Embedding of the grouping pass of `generate_pdf` (source lines
2108–2114): each message whose `CreateTime` is truthy and yields a date is
appended to its date bucket; every other message is skipped. -/
def group_by_date (P : PyPrims) (chats : List Message) :
    List ((Nat × Nat × Nat) × List Message) :=
  chats.foldl (fun dict m =>
    if truthy m.createTime then
      match get_date_from_timestamp P m.createTime with
      | some d => addToGroup d m dict
      | none => dict
    else dict) []

/-- First message of the C2 counterexample: a format-parseable date
string. -/
def msgA : Message := ⟨some (.str "2023-01-05"), "a"⟩

/-- Second message of the C2 counterexample: an earlier format-parseable
date string. -/
def msgB : Message := ⟨some (.str "2022-01-05"), "b"⟩

/-- Message with a missing `CreateTime`, used by the C9 witness. -/
def msgNoTime : Message := ⟨none, "x"⟩

/-- Title string of a date-group bookmark (source line 2179):
the date followed by the message count. -/
def bookmarkTitle (date : String) (count : Nat) : String :=
  date ++ " (" ++ toString count ++ "条)"

/-- Per-date message pass of `generate_pdf` (source lines 2186–2195).
Each message is drawn: `draw_message` may internally call `showPage`, and
the `PageTracker` counter is only ever incremented (by one per
`showPage`, source lines 2131–2135), so the drawing step is modelled by a
function returning the number of pages added together with the new
vertical cursor.  After each message the outer loop breaks the page
itself when the returned cursor fell below the bottom margin, resetting
the cursor to the top position. -/
def processMsgs {α : Type} (drawMsg : Nat → ℚ → α → Nat × ℚ)
    (marginBottom topY : ℚ) : List α → Nat → ℚ → Nat × ℚ
  | [], page, y => (page, y)
  | m :: ms, page, y =>
    if (drawMsg page y m).2 < marginBottom then
      processMsgs drawMsg marginBottom topY ms (page + (drawMsg page y m).1 + 1) topY
    else
      processMsgs drawMsg marginBottom topY ms
        (page + (drawMsg page y m).1) (drawMsg page y m).2

/-- Bookmark-recording composition loop of `generate_pdf` (source lines
2174–2195): for each date group in sorted order, the current
`PageTracker` page index is recorded as a bookmark — before any of the
group's messages is drawn — and then the group's messages are
processed. -/
def composeLoop {α : Type} (drawMsg : Nat → ℚ → α → Nat × ℚ)
    (marginBottom topY : ℚ) :
    List (String × List α) → Nat → ℚ → List (String × Nat) × Nat × ℚ
  | [], page, y => ([], page, y)
  | (date, msgs) :: gs, page, y =>
    ((bookmarkTitle date msgs.length, page) ::
        (composeLoop drawMsg marginBottom topY gs
          (processMsgs drawMsg marginBottom topY msgs page y).1
          (processMsgs drawMsg marginBottom topY msgs page y).2).1,
      (composeLoop drawMsg marginBottom topY gs
          (processMsgs drawMsg marginBottom topY msgs page y).1
          (processMsgs drawMsg marginBottom topY msgs page y).2).2)

/-- Bookmark list of a `generate_pdf` run (source lines 2163–2195): the
synthetic title bookmark `("微信聊天记录", 0)` recorded for the cover page
(the `PageTracker` counter starts at 0), followed by one bookmark per
date group from the composition loop. -/
def generate_bookmarks {α : Type} (drawMsg : Nat → ℚ → α → Nat × ℚ)
    (marginBottom topY y0 : ℚ) (groups : List (String × List α)) :
    List (String × Nat) :=
  ("微信聊天记录", 0) :: (composeLoop drawMsg marginBottom topY groups 0 y0).1

/-- Result of loading/parsing the transcript argument: a JSON list of
messages, or any other JSON value (including the empty dict that
`load_json_file` returns on failure). -/
inductive LoadedVal where
  | list (xs : List Message)
  | nonList
  deriving DecidableEq

/-- The `chat_file` argument of `generate_pdf` as the source distinguishes
the cases (lines 2054–2070): an existing path (carrying what
`load_json_file` returned), a non-path string (carrying the `json.loads`
result, `none` when parsing raises), an in-memory list, or a value of any
other type. -/
inductive ChatArg where
  | pathExists (v : LoadedVal)
  | rawString (parsed : Option LoadedVal)
  | listArg (xs : List Message)
  | otherType
  deriving DecidableEq

/-- Embedding of the transcript-validation prologue of `generate_pdf`
(source lines 2053–2075), which runs before the canvas is created: an
unparseable raw string, a non-list argument, a non-list load result, or
an empty message list each log a descriptive error and return; otherwise
the non-empty message list flows on to rendering. -/
def generate_pdf_validate (arg : ChatArg) : Except String (List Message) :=
  match arg with
  | .rawString none => .error "❌ 无法解析聊天数据"
  | .otherType => .error "❌ 无效的聊天数据格式"
  | .pathExists (.list xs) =>
    if xs.isEmpty then .error "⚠️ 聊天数据为空或无效" else .ok xs
  | .pathExists .nonList => .error "⚠️ 聊天数据为空或无效"
  | .rawString (some (.list xs)) =>
    if xs.isEmpty then .error "⚠️ 聊天数据为空或无效" else .ok xs
  | .rawString (some .nonList) => .error "⚠️ 聊天数据为空或无效"
  | .listArg xs =>
    if xs.isEmpty then .error "⚠️ 聊天数据为空或无效" else .ok xs

/-- Observable outcome of a `generate_pdf` run for claim C4. -/
structure GenOutcome where
  abortedBeforeDrawing : Bool
  errorLog : Option String
  exitCode : Nat
  deriving DecidableEq

/-- Run model for C4: on a validation error `generate_pdf` performs a
plain `return` before the canvas is created, so nothing is drawn and —
since the entry point simply calls `generate_pdf` and falls off the end —
the process exit status is 0; on success drawing proceeds, also ending
with exit status 0.  The only `sys.exit(1)` calls in the program are the
import-time environment checks (Python version, missing dependencies),
which are independent of the transcript. -/
def generate_pdf_run (arg : ChatArg) : GenOutcome :=
  match generate_pdf_validate arg with
  | .error e => ⟨true, some e, 0⟩
  | .ok _ => ⟨false, none, 0⟩

/-- The `mm` unit of the drawing library: 1 millimetre in points
(72 / 25.4). -/
def mm : ℚ := 360 / 127

/-- Embedding of the `try/except` structure of `draw_message` (source
lines 1508–1524 and 2006–2010): the whole body is abstracted as a
computation that either produces a new vertical cursor or raises; the
single `except Exception` handler catches every exception and returns the
incoming cursor decremented by the fixed `5 * mm` advance, making
`draw_message` a total function — no exception reaches the caller. -/
def draw_message (body : Except String ℚ) (y_pos : ℚ) : ℚ :=
  match body with
  | .ok y => y
  | .error _ => y_pos - 5 * mm

/-- Outline entry written by the second pass; the source always passes
`parent=None` to `add_outline_item` / `addBookmark`. -/
structure OutlineEntry where
  title : String
  page : Nat
  parent : Option Nat
  deriving DecidableEq

/-- Embedding of the outline-attach second pass of `generate_pdf` (source
lines 2247–2276): every page of the reader is appended to the new writer
in order and unmodified, then each bookmark whose target page index is
strictly below the page count is appended as a top-level outline entry
(`parent=None`; out-of-bound bookmarks are skipped).  Page content is
abstracted by the type `α`. -/
def attach_outline {α : Type} (readerPages : List α)
    (bookmarks : List (String × Nat)) : List α × List OutlineEntry :=
  (readerPages.foldl (fun acc p => acc ++ [p]) [],
   bookmarks.foldl (fun acc b =>
     if b.2 < readerPages.length then acc ++ [⟨b.1, b.2, none⟩] else acc) [])

/-- Outcome of the one network fetch `download_media_file` may attempt for
a URL reference (source lines 1463–1493). -/
inductive FetchOutcome where
  | typeRejected
  | raised (fileLeft : Bool)
  | completed (nonempty : Bool)
  deriving DecidableEq

/-- External world of `download_media_file`: the `md5` hash primitive, the
network fetch outcome per URL, and the local-search result of
`get_real_media_path(src, media_type, user_id)` (a path that exists on
disk, or `none`). -/
structure MediaEnv where
  md5 : String → String
  fetch : String → FetchOutcome
  realPath : String → String → String → Option String

/-- Type-specific cache extension (source line 1451). -/
def mediaExt (media_type : String) : String :=
  if media_type = "image" then ".jpg"
  else if media_type = "video" then ".mp4"
  else if media_type = "voice" then ".wav"
  else if media_type = "emoji" then ".gif"
  else if media_type = "file" then ""
  else ".dat"

/-- Character-list prefix test (structural counterpart of
`str.startswith`). -/
def beginsWith : List Char → List Char → Bool
  | [], _ => true
  | _ :: _, [] => false
  | p :: ps, c :: cs => p == c && beginsWith ps cs

/-- URL test of `download_media_file` (source line 1463):
`src_path.startswith(("http://", "https://"))`. -/
def isUrl (s : String) : Bool :=
  beginsWith "http://".toList s.toList || beginsWith "https://".toList s.toList

/-- Deterministic cache path (source lines 1450–1452): media type plus the
message id (or the md5 of the reference when the id is falsy) plus the
type-specific extension, inside the media cache directory. -/
def cacheFileName (env : MediaEnv) (src media_type msg_id : String) : String :=
  "wechat_media_cache/" ++ media_type ++ "_" ++
    (if msg_id = "" then env.md5 src else msg_id) ++ mediaExt media_type

/-- Result of one `download_media_file` call: the returned path, the
resulting set of existing cache files, and whether a network fetch /
local file copy was performed. -/
structure MediaResult where
  result : Option String
  fs : List String
  fetched : Bool
  copied : Bool
  deriving DecidableEq

/-- Embedding of `download_media_file(src_path, media_type, msg_id,
user_id)` (source lines 1428–1505) over an explicit set `fs` of existing
cache files: empty reference fails; an existing cache file is returned
immediately with no fetch and no copy; a URL reference performs the one
fetch (content-type rejection and failures return `None`, an empty
download leaves the empty file behind and returns `None`, a non-empty
download returns the cache path); otherwise a successful local search
copies the found file into the cache and returns the cache path. -/
def download_media_file (env : MediaEnv) (fs : List String)
    (src media_type msg_id user_id : String) : MediaResult :=
  if src = "" then ⟨none, fs, false, false⟩
  else if cacheFileName env src media_type msg_id ∈ fs then
    ⟨some (cacheFileName env src media_type msg_id), fs, false, false⟩
  else if isUrl src then
    match env.fetch src with
    | .typeRejected => ⟨none, fs, true, false⟩
    | .raised fileLeft =>
      ⟨none, if fileLeft then cacheFileName env src media_type msg_id :: fs else fs,
        true, false⟩
    | .completed nonempty =>
      if nonempty then
        ⟨some (cacheFileName env src media_type msg_id),
          cacheFileName env src media_type msg_id :: fs, true, false⟩
      else ⟨none, cacheFileName env src media_type msg_id :: fs, true, false⟩
  else
    match env.realPath src media_type user_id with
    | some _ =>
      ⟨some (cacheFileName env src media_type msg_id),
        cacheFileName env src media_type msg_id :: fs, false, true⟩
    | none => ⟨none, fs, false, false⟩

/-- Concrete media environment for the C8 witness: every fetch completes
with a non-empty body. -/
def mediaEnvEx : MediaEnv :=
  ⟨fun _ => "cafe", fun _ => .completed true, fun _ _ _ => none⟩

section WrapTheorems

theorem clusterLen_pos (c : Nat) (rest : List Nat) :
    1 ≤ clusterLen (c :: rest) := by
  simp only [clusterLen]; split <;> omega

theorem take_clusterLen_ne_nil (c : Nat) (rest : List Nat) :
    (c :: rest).take (clusterLen (c :: rest)) ≠ [] := by
  have h := clusterLen_pos c rest
  cases hcl : clusterLen (c :: rest) with
  | zero => omega
  | succ n => simp [List.take]

theorem drop_clusterLen_length_lt (c : Nat) (rest : List Nat) :
    ((c :: rest).drop (clusterLen (c :: rest))).length < (c :: rest).length := by
  have h := clusterLen_pos c rest
  rw [List.length_drop]
  simp only [List.length_cons]
  omega

theorem glueLines_nil : ∀ chunks, glueLines [] chunks = chunks.map List.flatten
  | [] => by simp [glueLines]
  | _ :: _ => by simp [glueLines]

theorem wrapGo_join (w : List Nat → ℚ) (maxWidth : ℚ) :
    ∀ text currentLine, (wrapGo w maxWidth text currentLine).flatten = currentLine ++ text
  | [], currentLine => by
    rw [wrapGo]
    split <;> simp_all
  | c :: rest, currentLine => by
    rw [wrapGo]
    have IH := fun cl =>
      wrapGo_join w maxWidth ((c :: rest).drop (clusterLen (c :: rest))) cl
    split
    · rw [IH]
      rw [List.append_assoc, List.take_append_drop]
    · have IH0 := IH []
      have IHcur := IH ((c :: rest).take (clusterLen (c :: rest)))
      split <;> split <;>
        simp_all [List.take_append_drop, List.append_assoc]
  termination_by text _ => text.length
  decreasing_by all_goals exact drop_clusterLen_length_lt c rest

theorem wrapGo_chunks (w : List Nat → ℚ) (maxWidth : ℚ) :
    ∀ text currentLine, ∃ chunks : List (List (List Nat)),
      chunks.flatten = tokenize text ∧
      wrapGo w maxWidth text currentLine = glueLines currentLine chunks
  | [], currentLine => by
    refine ⟨[], by simp [tokenize], ?_⟩
    rw [wrapGo]
    simp [glueLines]
  | c :: rest, currentLine => by
    have hne := take_clusterLen_ne_nil c rest
    rw [wrapGo]
    by_cases hfit :
        w (currentLine ++ (c :: rest).take (clusterLen (c :: rest))) ≤ maxWidth
    · rw [if_pos hfit]
      obtain ⟨chunks', hj, he⟩ :=
        wrapGo_chunks w maxWidth ((c :: rest).drop (clusterLen (c :: rest)))
          (currentLine ++ (c :: rest).take (clusterLen (c :: rest)))
      rw [he]
      cases chunks' with
      | nil =>
        refine ⟨[[(c :: rest).take (clusterLen (c :: rest))]], ?_, ?_⟩
        · rw [tokenize]
          simp_all
        · simp [glueLines, hne]
      | cons ch restc =>
        refine ⟨((c :: rest).take (clusterLen (c :: rest)) :: ch) :: restc, ?_, ?_⟩
        · rw [tokenize]
          simp_all
        · simp [glueLines, List.append_assoc]
    · rw [if_neg hfit]
      by_cases hover : maxWidth < w ((c :: rest).take (clusterLen (c :: rest)))
      · rw [if_pos hover]
        obtain ⟨chunks', hj, he⟩ :=
          wrapGo_chunks w maxWidth ((c :: rest).drop (clusterLen (c :: rest))) []
        rw [he, glueLines_nil]
        by_cases hcl : currentLine = []
        · subst hcl
          refine ⟨[(c :: rest).take (clusterLen (c :: rest))] :: chunks', ?_, ?_⟩
          · rw [tokenize]
            simp_all
          · simp [glueLines]
        · refine ⟨[] :: [(c :: rest).take (clusterLen (c :: rest))] :: chunks', ?_, ?_⟩
          · rw [tokenize]
            simp_all
          · simp [glueLines, hcl]
      · rw [if_neg hover]
        obtain ⟨chunks', hj, he⟩ :=
          wrapGo_chunks w maxWidth ((c :: rest).drop (clusterLen (c :: rest)))
            ((c :: rest).take (clusterLen (c :: rest)))
        rw [he]
        by_cases hcl : currentLine = []
        · subst hcl
          cases chunks' with
          | nil =>
            refine ⟨[[(c :: rest).take (clusterLen (c :: rest))]], ?_, ?_⟩
            · rw [tokenize]
              simp_all
            · simp [glueLines, hne]
          | cons ch restc =>
            refine ⟨((c :: rest).take (clusterLen (c :: rest)) :: ch) :: restc, ?_, ?_⟩
            · rw [tokenize]
              simp_all
            · simp [glueLines]
        · cases chunks' with
          | nil =>
            refine ⟨[] :: [[(c :: rest).take (clusterLen (c :: rest))]], ?_, ?_⟩
            · rw [tokenize]
              simp_all
            · simp [glueLines, hcl, hne]
          | cons ch restc =>
            refine ⟨[] :: ((c :: rest).take (clusterLen (c :: rest)) :: ch) :: restc, ?_, ?_⟩
            · rw [tokenize]
              simp_all
            · simp [glueLines, hcl]
  termination_by text _ => text.length
  decreasing_by all_goals exact drop_clusterLen_length_lt c rest

theorem get_string_width_suffix_mono (sw : List Nat → String → ℚ → ℚ)
    (fontName : String) (fontSize : ℚ)
    (hsw : ∀ ch fnt, 0 ≤ sw [ch] fnt fontSize) (pre t : List Nat)
    (ht : t.any isEmojiRange = true) :
    get_string_width sw t fontName fontSize ≤
      get_string_width sw (pre ++ t) fontName fontSize := by
  have hpt : (pre ++ t).any isEmojiRange = true := by
    simp [List.any_append, ht]
  simp only [get_string_width, ht, hpt, if_true]
  rw [List.map_append, List.sum_append]
  have hpre : 0 ≤ (pre.map (fun ch =>
      if isModifier ch then 0
      else if isEmojiRange ch then sw [ch] "EmojiFont" fontSize
      else sw [ch] fontName fontSize)).sum := by
    apply List.sum_nonneg
    intro x hx
    obtain ⟨ch, _, rfl⟩ := List.mem_map.mp hx
    split
    · exact le_refl 0
    · split <;> exact hsw ch _
  linarith

theorem wrapGo_oversized_mem (w : List Nat → ℚ) (maxWidth : ℚ)
    (hmono : ∀ pre t : List Nat, t.any isEmojiRange = true → w t ≤ w (pre ++ t)) :
    ∀ text currentLine t, t ∈ tokenize text → t.any isEmojiRange = true →
      maxWidth < w t → t ∈ wrapGo w maxWidth text currentLine
  | [], _, t, ht, _, _ => by simp [tokenize] at ht
  | c :: rest, currentLine, t, ht, hemoji, hwide => by
    rw [tokenize] at ht
    rw [wrapGo]
    rcases List.mem_cons.mp ht with h | h
    · subst h
      have h1 : ¬ (w (currentLine ++ (c :: rest).take (clusterLen (c :: rest))) ≤ maxWidth) :=
        not_le.mpr (lt_of_lt_of_le hwide (hmono currentLine _ hemoji))
      rw [if_neg h1, if_pos hwide]
      simp [List.mem_append]
    · have IH := fun cl =>
        wrapGo_oversized_mem w maxWidth hmono
          ((c :: rest).drop (clusterLen (c :: rest))) cl t h hemoji hwide
      split
      · exact IH _
      · rw [List.mem_append]
        right
        split
        · exact List.mem_cons_of_mem _ (IH [])
        · exact IH _
  termination_by text _ _ _ _ _ => text.length
  decreasing_by all_goals exact drop_clusterLen_length_lt c rest

/-- C10: `wrap_text` is content-preserving — concatenating the returned
lines in order yields exactly the original text, for every text, font,
size and maximum width; in particular empty input yields the empty line
list. -/
theorem wrap_text_content_preserving (sw : List Nat → String → ℚ → ℚ)
    (text : List Nat) (fontName : String) (fontSize maxWidth : ℚ) :
    (wrap_text sw text fontName fontSize maxWidth).flatten = text ∧
      wrap_text sw [] fontName fontSize maxWidth = [] := by
  constructor
  · unfold wrap_text
    split
    · simp_all
    · rw [wrapGo_join]
      simp
  · simp [wrap_text]

/-- C1: `wrap_text` never splits an atomic emoji cluster (an emoji-range
base plus its trailing variant-selector/skin-tone run, ZWJ-chained to
further emoji and their modifiers, exactly as the source scanner consumes
it) across two output lines: the output is a concatenation of whole
consecutive scanner tokens.  Moreover an emoji cluster whose measured
width alone exceeds `maxWidth` is emitted as a line by itself, provided
single-character engine widths are non-negative. -/
theorem wrap_text_cluster_atomic (sw : List Nat → String → ℚ → ℚ)
    (text : List Nat) (fontName : String) (fontSize maxWidth : ℚ)
    (hsw : ∀ ch fnt, 0 ≤ sw [ch] fnt fontSize) :
    (∃ chunks : List (List (List Nat)),
        chunks.flatten = tokenize text ∧
        wrap_text sw text fontName fontSize maxWidth = chunks.map List.flatten) ∧
    ∀ t ∈ tokenize text, t.any isEmojiRange = true →
      maxWidth < get_string_width sw t fontName fontSize →
      t ∈ wrap_text sw text fontName fontSize maxWidth := by
  have hmono : ∀ pre t : List Nat, t.any isEmojiRange = true →
      get_string_width sw t fontName fontSize ≤
        get_string_width sw (pre ++ t) fontName fontSize :=
    fun pre t ht => get_string_width_suffix_mono sw fontName fontSize hsw pre t ht
  constructor
  · unfold wrap_text
    split
    · subst text
      exact ⟨[], by simp [tokenize], by simp⟩
    · obtain ⟨chunks, hj, he⟩ :=
        wrapGo_chunks (fun l => get_string_width sw l fontName fontSize) maxWidth text []
      exact ⟨chunks, hj, by rw [he, glueLines_nil]⟩
  · intro t ht hemoji hwide
    unfold wrap_text
    split
    · subst text
      simp [tokenize] at ht
    · exact wrapGo_oversized_mem (fun l => get_string_width sw l fontName fontSize)
        maxWidth hmono text [] t ht hemoji hwide

/-- Witness for C1 at the concrete text 😀‍😁a (codepoints `0x1F600`,
`0x200D`, `0x1F601`, `97`) with the length-based engine and maximum
width 2. -/
theorem wrap_text_cluster_atomic_witness :
    (∃ chunks : List (List (List Nat)),
        chunks.flatten = tokenize [0x1F600, 0x200D, 0x1F601, 97] ∧
        wrap_text swLen [0x1F600, 0x200D, 0x1F601, 97] "SimSun" 10 2 =
          chunks.map List.flatten) ∧
    ∀ t ∈ tokenize [0x1F600, 0x200D, 0x1F601, 97], t.any isEmojiRange = true →
      (2 : ℚ) < get_string_width swLen t "SimSun" 10 →
      t ∈ wrap_text swLen [0x1F600, 0x200D, 0x1F601, 97] "SimSun" 10 2 :=
  wrap_text_cluster_atomic swLen [0x1F600, 0x200D, 0x1F601, 97] "SimSun" 10 2
    (fun ch fnt => by simp [swLen])

/-- C5: for every text containing no emoji-range codepoint,
`get_string_width` returns exactly the underlying font engine's direct
string-width result for the whole string (fast-path equivalence), assuming
the measurement primitive does not fail. -/
theorem get_string_width_fast_path (sw : List Nat → String → ℚ → ℚ)
    (text : List Nat) (fontName : String) (fontSize : ℚ)
    (h : text.any isEmojiRange = false) :
    get_string_width sw text fontName fontSize = sw text fontName fontSize := by
  simp [get_string_width, h]

/-- Witness for C5 at the concrete text "Hi" (codepoints 72, 105). -/
theorem get_string_width_fast_path_witness :
    ([72, 105].any isEmojiRange = false) ∧
      get_string_width swLen [72, 105] "SimSun" 10 = swLen [72, 105] "SimSun" 10 :=
  ⟨by decide, get_string_width_fast_path swLen [72, 105] "SimSun" 10 (by decide)⟩

end WrapTheorems

section SortAndGroupTheorems

/-- Counterexample to C2 as stated: two messages whose `CreateTime`
strings are parseable by the supported formats (`"2023-01-05"` before
`"2022-01-05"`).  The code's sort gives both primary key 0 (`isdigit()`
is false and the format parsers are never consulted), so the stable sort
leaves them in input order, while sorting ascending on the claim's key
(numeric parse, then formats, epoch 0 only when everything fails) would
put the 2022 message first. -/
theorem sort_formats_counterexample :
    pySortChats pyPrimsModel [msgA, msgB] = [msgA, msgB] ∧
    claimSortChats pyPrimsModel [msgA, msgB] = [msgB, msgA] ∧
    [msgA, msgB] ≠ ([msgB, msgA] : List Message) :=
  ⟨by decide, by decide, by decide⟩

/-- C2 amended: ordering is established by a stable ascending sort on the
primary key `int(CreateTime) if CreateTime.isdigit() else 0` whenever
every message's `CreateTime` is a string or missing; any non-digit string
(including every date-format string) sorts with key 0.  The
`parse_timestamp` multi-format fallback key is used only when the primary
key computation raises.  The result is always a permutation of the
input. -/
theorem pySortChats_spec (P : PyPrims) (chats : List Message) :
    (pySortChats P chats).Perm chats ∧
    (chats.all primaryKeyOk = true →
      pySortChats P chats =
        List.insertionSort (fun a b => primaryKey a ≤ primaryKey b) chats ∧
      List.Sorted (fun a b => primaryKey a ≤ primaryKey b) (pySortChats P chats)) ∧
    (∀ (m : Message) (t : String), m.createTime = some (.str t) →
      pyIsdigit t = false → primaryKey m = 0) := by
  refine ⟨?_, ?_, ?_⟩
  · unfold pySortChats
    split <;> exact List.perm_insertionSort _ _
  · intro h
    have he : pySortChats P chats =
        List.insertionSort (fun a b => primaryKey a ≤ primaryKey b) chats := by
      unfold pySortChats
      rw [if_pos h]
    refine ⟨he, ?_⟩
    rw [he]
    haveI : IsTotal Message (fun a b => primaryKey a ≤ primaryKey b) :=
      ⟨fun a b => Int.le_total (primaryKey a) (primaryKey b)⟩
    haveI : IsTrans Message (fun a b => primaryKey a ≤ primaryKey b) :=
      ⟨fun _ _ _ hab hbc => le_trans hab hbc⟩
    exact List.sorted_insertionSort _ _
  · intro m t h1 h2
    simp [primaryKey, h1, h2]

/-- Witness for the amended C2 on the concrete two-message list of the
counterexample. -/
theorem pySortChats_spec_witness :
    (pySortChats pyPrimsModel [msgA, msgB]).Perm [msgA, msgB] ∧
    List.Sorted (fun a b => primaryKey a ≤ primaryKey b)
      (pySortChats pyPrimsModel [msgA, msgB]) ∧
    primaryKey msgA = 0 :=
  ⟨(pySortChats_spec pyPrimsModel [msgA, msgB]).1,
   ((pySortChats_spec pyPrimsModel [msgA, msgB]).2.1 (by decide)).2,
   (pySortChats_spec pyPrimsModel [msgA, msgB]).2.2 msgA "2023-01-05" rfl (by decide)⟩

theorem addToGroup_excluded (m m0 : Message) (d : Nat × Nat × Nat)
    (hne : m ≠ m0) :
    ∀ dict, (∀ g ∈ dict, m ∉ g.2) → ∀ g ∈ addToGroup d m0 dict, m ∉ g.2 := by
  intro dict
  induction dict with
  | nil =>
    intro _ g hg
    simp only [addToGroup, List.mem_singleton] at hg
    subst hg
    simp [hne]
  | cons p rest ih =>
    obtain ⟨d', ms⟩ := p
    intro h g hg
    simp only [addToGroup] at hg
    split at hg
    · rcases List.mem_cons.mp hg with rfl | hgr
      · intro hm
        rcases List.mem_append.mp hm with h1 | h2
        · exact h (d', ms) (by simp) h1
        · rw [List.mem_singleton] at h2
          exact hne h2
      · exact h g (List.mem_cons_of_mem _ hgr)
    · rcases List.mem_cons.mp hg with rfl | hgr
      · exact h (d', ms) (by simp)
      · exact ih (fun g' hg' => h g' (List.mem_cons_of_mem _ hg')) g hgr

theorem group_fold_excluded (P : PyPrims) (m : Message)
    (hbad : parse_timestamp P m.createTime = none) :
    ∀ (l : List Message) dict, (∀ g ∈ dict, m ∉ g.2) →
      ∀ g ∈ l.foldl (fun dict m' =>
          if truthy m'.createTime then
            match get_date_from_timestamp P m'.createTime with
            | some d => addToGroup d m' dict
            | none => dict
          else dict) dict, m ∉ g.2 := by
  intro l
  induction l with
  | nil => exact fun dict h g hg => h g hg
  | cons mh l' ih =>
    intro dict h
    rw [List.foldl_cons]
    refine ih _ ?_
    intro g hg
    by_cases ht : truthy mh.createTime = true
    · rw [if_pos ht] at hg
      cases hd : get_date_from_timestamp P mh.createTime with
      | none =>
        rw [hd] at hg
        exact h g hg
      | some d =>
        rw [hd] at hg
        refine addToGroup_excluded m mh d ?_ dict h g hg
        intro hEq
        rw [← hEq, get_date_from_timestamp, hbad] at hd
        simp at hd
    · rw [if_neg ht] at hg
      exact h g hg

/-- C9: every message whose `CreateTime` is missing, empty or unparseable
by the numeric parse and by every supported format (i.e.
`parse_timestamp` yields `None`) is silently excluded from all date
groups during grouping — it is in no group's message list — even though
it still participates in the sort (it is a member of the sorted list the
grouping pass consumes). -/
theorem unparseable_excluded (P : PyPrims) (chats : List Message)
    (m : Message) (hm : m ∈ chats)
    (hbad : parse_timestamp P m.createTime = none) :
    m ∈ pySortChats P chats ∧
      ∀ g ∈ group_by_date P (pySortChats P chats), m ∉ g.2 := by
  constructor
  · unfold pySortChats
    split <;> exact ((List.perm_insertionSort _ _).mem_iff).mpr hm
  · intro g hg
    exact group_fold_excluded P m hbad (pySortChats P chats) []
      (by simp) g hg

/-- Witness for C9 on a one-message list whose `CreateTime` is missing. -/
theorem unparseable_excluded_witness :
    msgNoTime ∈ [msgNoTime] ∧
    parse_timestamp pyPrimsModel msgNoTime.createTime = none ∧
    (msgNoTime ∈ pySortChats pyPrimsModel [msgNoTime] ∧
      ∀ g ∈ group_by_date pyPrimsModel (pySortChats pyPrimsModel [msgNoTime]),
        msgNoTime ∉ g.2) :=
  ⟨by simp, by decide,
   unparseable_excluded pyPrimsModel [msgNoTime] msgNoTime (by simp) (by decide)⟩

end SortAndGroupTheorems

section ComposeTheorems

theorem processMsgs_page_le {α : Type} (drawMsg : Nat → ℚ → α → Nat × ℚ)
    (mb top : ℚ) :
    ∀ (ms : List α) (page : Nat) (y : ℚ),
      page ≤ (processMsgs drawMsg mb top ms page y).1
  | [], _, _ => le_refl _
  | m :: ms, page, y => by
    rw [processMsgs]
    split
    · exact le_trans (by omega)
        (processMsgs_page_le drawMsg mb top ms (page + (drawMsg page y m).1 + 1) top)
    · exact le_trans (by omega)
        (processMsgs_page_le drawMsg mb top ms
          (page + (drawMsg page y m).1) (drawMsg page y m).2)

theorem composeLoop_titles {α : Type} (drawMsg : Nat → ℚ → α → Nat × ℚ)
    (mb top : ℚ) :
    ∀ (gs : List (String × List α)) (page : Nat) (y : ℚ),
      (composeLoop drawMsg mb top gs page y).1.map Prod.fst =
        gs.map (fun g => bookmarkTitle g.1 g.2.length)
  | [], _, _ => rfl
  | (date, msgs) :: gs, page, y => by
    rw [composeLoop]
    simp only [List.map_cons]
    rw [composeLoop_titles drawMsg mb top gs _ _]

theorem composeLoop_pages {α : Type} (drawMsg : Nat → ℚ → α → Nat × ℚ)
    (mb top : ℚ) :
    ∀ (gs : List (String × List α)) (page : Nat) (y : ℚ),
      (∀ b ∈ (composeLoop drawMsg mb top gs page y).1, page ≤ b.2) ∧
      List.Chain' (fun a b => a.2 ≤ b.2) (composeLoop drawMsg mb top gs page y).1
  | [], page, y => by
    constructor
    · intro b hb
      simp [composeLoop] at hb
    · simp [composeLoop]
  | (date, msgs) :: gs, page, y => by
    obtain ⟨ihb, ihc⟩ := composeLoop_pages drawMsg mb top gs
      (processMsgs drawMsg mb top msgs page y).1
      (processMsgs drawMsg mb top msgs page y).2
    have hle : page ≤ (processMsgs drawMsg mb top msgs page y).1 :=
      processMsgs_page_le drawMsg mb top msgs page y
    rw [composeLoop]
    constructor
    · intro b hb
      rcases List.mem_cons.mp hb with rfl | hb'
      · simp
      · exact le_trans hle (ihb b hb')
    · rw [List.chain'_cons']
      refine ⟨?_, ihc⟩
      intro b hbh
      exact le_trans hle (ihb b (List.mem_of_mem_head? hbh))

/-- C3: the recorded bookmark list always starts with the synthetic title
bookmark at page 0, contains exactly one bookmark per date group in
sorted order (titled with the date and its message count), and the
recorded page indices are non-decreasing along the list — each group's
bookmark carries the page index active before its first message is
drawn, and the `PageTracker` counter never decreases. -/
theorem generate_bookmarks_spec {α : Type} (drawMsg : Nat → ℚ → α → Nat × ℚ)
    (marginBottom topY y0 : ℚ) (groups : List (String × List α)) :
    (generate_bookmarks drawMsg marginBottom topY y0 groups).head? =
        some ("微信聊天记录", 0) ∧
    (generate_bookmarks drawMsg marginBottom topY y0 groups).map Prod.fst =
        "微信聊天记录" :: groups.map (fun g => bookmarkTitle g.1 g.2.length) ∧
    List.Chain' (fun a b => a.2 ≤ b.2)
      (generate_bookmarks drawMsg marginBottom topY y0 groups) := by
  refine ⟨rfl, ?_, ?_⟩
  · unfold generate_bookmarks
    simp only [List.map_cons]
    rw [composeLoop_titles]
  · unfold generate_bookmarks
    rw [List.chain'_cons']
    obtain ⟨hb, hc⟩ := composeLoop_pages drawMsg marginBottom topY groups 0 y0
    refine ⟨?_, hc⟩
    intro b hbh
    exact Nat.zero_le _

/-- Counterexample to C4 as stated: on the empty transcript the run does
abort before any drawing, but the process exit status is 0 — the
InputError paths perform a plain `return` and the entry point never calls
`sys.exit`, so no transcript failure terminates the process with a
non-zero exit status. -/
theorem input_error_exit_counterexample :
    (generate_pdf_run (.listArg [])).abortedBeforeDrawing = true ∧
    (generate_pdf_run (.listArg [])).exitCode = 0 :=
  ⟨rfl, rfl⟩

/-- C4 amended: when the transcript is missing, empty, unparseable or of
an invalid type, `generate_pdf` aborts with a descriptive logged error
before any drawing (no canvas is created, no document produced);
otherwise drawing proceeds.  In every case the process exit status is 0 —
no failure class inside `generate_pdf` sets a non-zero exit status (the
only non-zero exits are the import-time environment checks). -/
theorem generate_pdf_input_error_spec (arg : ChatArg) :
    (∀ e, generate_pdf_validate arg = .error e →
      (generate_pdf_run arg).abortedBeforeDrawing = true ∧
        (generate_pdf_run arg).errorLog = some e) ∧
    (∀ xs, generate_pdf_validate arg = .ok xs →
      (generate_pdf_run arg).abortedBeforeDrawing = false) ∧
    (generate_pdf_run arg).exitCode = 0 := by
  refine ⟨?_, ?_, ?_⟩
  · intro e he
    simp [generate_pdf_run, he]
  · intro xs hx
    simp [generate_pdf_run, hx]
  · unfold generate_pdf_run
    rcases hv : generate_pdf_validate arg with e | xs <;> simp

/-- Witness for the amended C4 on the concrete empty transcript. -/
theorem generate_pdf_input_error_spec_witness :
    generate_pdf_validate (.listArg []) = .error "⚠️ 聊天数据为空或无效" ∧
    ((generate_pdf_run (.listArg [])).abortedBeforeDrawing = true ∧
      (generate_pdf_run (.listArg [])).errorLog = some "⚠️ 聊天数据为空或无效") ∧
    (generate_pdf_run (.listArg [])).exitCode = 0 :=
  ⟨rfl, (generate_pdf_input_error_spec (.listArg [])).1 _ rfl,
    (generate_pdf_input_error_spec (.listArg [])).2.2⟩

/-- C6: `draw_message` is total — any exception raised while drawing one
message is caught inside it and never propagates to the caller — and on
such a failure it returns the incoming vertical cursor decremented by the
small fixed `5 * mm` advance; on success the body's cursor is returned. -/
theorem draw_message_total_spec (body : Except String ℚ) (y : ℚ) :
    (∀ e, body = .error e → draw_message body y = y - 5 * mm) ∧
    (∀ y2, body = .ok y2 → draw_message body y = y2) := by
  constructor
  · intro e he
    rw [he]
    rfl
  · intro y2 hy
    rw [hy]
    rfl

/-- Witness for C6 at a concrete failing body and a concrete succeeding
body. -/
theorem draw_message_total_spec_witness :
    draw_message (.error "boom") 100 = 100 - 5 * mm ∧
    draw_message (.ok 42) 100 = 42 :=
  ⟨(draw_message_total_spec (.error "boom") 100).1 "boom" rfl,
   (draw_message_total_spec (.ok 42) 100).2 42 rfl⟩

theorem foldl_append_singleton {α : Type} :
    ∀ (l acc : List α), l.foldl (fun acc p => acc ++ [p]) acc = acc ++ l
  | [], acc => by simp
  | p :: l, acc => by
    rw [List.foldl_cons, foldl_append_singleton l (acc ++ [p])]
    simp

theorem foldl_outline (n : Nat) :
    ∀ (bs : List (String × Nat)) (acc : List OutlineEntry),
      bs.foldl (fun acc b =>
          if b.2 < n then acc ++ [⟨b.1, b.2, none⟩] else acc) acc =
        acc ++ (bs.filter (fun b => decide (b.2 < n))).map
          (fun b => ⟨b.1, b.2, none⟩)
  | [], acc => by simp
  | b :: bs, acc => by
    rw [List.foldl_cons]
    by_cases h : b.2 < n
    · rw [if_pos h, foldl_outline n bs _]
      simp [List.filter_cons, h]
    · rw [if_neg h, foldl_outline n bs _]
      simp [List.filter_cons, h]

/-- C7: the outline-attach pass copies all draft pages unmodified into
the new writer, and the outline consists of exactly those bookmarks whose
target page index is strictly within the page count, in order, each as a
flat top-level entry (`parent = none`); on the Scenario D input — three
bookmarks over a 6-page draft — the outline is exactly 3 flat entries at
pages 0, 0 and 4. -/
theorem attach_outline_spec {α : Type} (readerPages : List α)
    (bookmarks : List (String × Nat)) :
    (attach_outline readerPages bookmarks).1 = readerPages ∧
    (attach_outline readerPages bookmarks).2 =
      (bookmarks.filter (fun b => decide (b.2 < readerPages.length))).map
        (fun b => ⟨b.1, b.2, none⟩) ∧
    ((attach_outline readerPages bookmarks).2.all
      (fun e => e.parent == none)) = true ∧
    (attach_outline ([0, 1, 2, 3, 4, 5] : List Nat)
        [("title", 0), ("2023-01-01 (3条)", 0), ("2023-01-02 (2条)", 4)]).2 =
      [⟨"title", 0, none⟩, ⟨"2023-01-01 (3条)", 0, none⟩,
        ⟨"2023-01-02 (2条)", 4, none⟩] := by
  refine ⟨?_, ?_, ?_, by decide⟩
  · unfold attach_outline
    rw [foldl_append_singleton]
    simp
  · unfold attach_outline
    rw [foldl_outline]
    simp
  · unfold attach_outline
    rw [foldl_outline]
    rw [List.all_eq_true]
    intro e he
    simp only [List.nil_append, List.mem_map] at he
    obtain ⟨b, _, rfl⟩ := he
    rfl

theorem download_media_file_cache_hit (env : MediaEnv) (fs : List String)
    (src media_type msg_id user_id : String)
    (hsrc : ¬ src = "")
    (hc : cacheFileName env src media_type msg_id ∈ fs) :
    download_media_file env fs src media_type msg_id user_id =
      ⟨some (cacheFileName env src media_type msg_id), fs, false, false⟩ := by
  unfold download_media_file
  rw [if_neg hsrc, if_pos hc]

theorem download_media_file_success (env : MediaEnv) (fs : List String)
    (src media_type msg_id user_id p : String)
    (h : (download_media_file env fs src media_type msg_id user_id).result = some p) :
    ¬ src = "" ∧ p = cacheFileName env src media_type msg_id ∧
      cacheFileName env src media_type msg_id ∈
        (download_media_file env fs src media_type msg_id user_id).fs := by
  unfold download_media_file at h ⊢
  by_cases hsrc : src = ""
  · rw [if_pos hsrc] at h
    exact absurd h (by simp)
  · rw [if_neg hsrc] at h ⊢
    refine ⟨hsrc, ?_⟩
    by_cases hcache : cacheFileName env src media_type msg_id ∈ fs
    · rw [if_pos hcache] at h ⊢
      simp only [Option.some.injEq] at h
      exact ⟨h.symm, hcache⟩
    · rw [if_neg hcache] at h ⊢
      by_cases hurl : isUrl src = true
      · rw [if_pos hurl] at h ⊢
        generalize env.fetch src = fo at h ⊢
        cases fo with
        | typeRejected => simp at h
        | raised fileLeft => simp at h
        | completed nonempty =>
          cases nonempty with
          | false => simp at h
          | true =>
            simp only [if_true, Option.some.injEq] at h
            subst h
            simp
      · rw [if_neg hurl] at h ⊢
        generalize env.realPath src media_type user_id = ro at h ⊢
        cases ro with
        | some rp =>
          simp only [Option.some.injEq] at h
          subst h
          simp
        | none => simp at h

/-- C8: resolving the same media reference twice (same `src_path`,
`media_type`, `msg_id`, `user_id`) is idempotent — when the first call
returns a cache path, the second call returns the same path, leaves the
file set unchanged, and performs neither a network fetch nor a file copy
(pure cache hit). -/
theorem download_media_file_idempotent (env : MediaEnv) (fs : List String)
    (src media_type msg_id user_id p : String)
    (h : (download_media_file env fs src media_type msg_id user_id).result = some p) :
    download_media_file env
        (download_media_file env fs src media_type msg_id user_id).fs
        src media_type msg_id user_id =
      ⟨some p,
        (download_media_file env fs src media_type msg_id user_id).fs,
        false, false⟩ := by
  obtain ⟨hsrc, hp, hmem⟩ :=
    download_media_file_success env fs src media_type msg_id user_id p h
  rw [hp]
  exact download_media_file_cache_hit env _ src media_type msg_id user_id hsrc hmem

/-- Witness for C8: a successful URL fetch of an image, then the second
call on the resulting file set. -/
theorem download_media_file_idempotent_witness :
    (download_media_file mediaEnvEx [] "http://x" "image" "m1" "u").result =
        some "wechat_media_cache/image_m1.jpg" ∧
    download_media_file mediaEnvEx
        (download_media_file mediaEnvEx [] "http://x" "image" "m1" "u").fs
        "http://x" "image" "m1" "u" =
      ⟨some "wechat_media_cache/image_m1.jpg",
        (download_media_file mediaEnvEx [] "http://x" "image" "m1" "u").fs,
        false, false⟩ :=
  ⟨by decide,
   download_media_file_idempotent mediaEnvEx [] "http://x" "image" "m1" "u"
     "wechat_media_cache/image_m1.jpg" (by decide)⟩

end ComposeTheorems

end WechatExport
